import Mathlib

/-!
Verification of the agentic tool-call loop of the `mcp-server` repository.

Texts are modelled as `List Char`.  The Python standard-library pieces the
code relies on (`str.find`, `str.rfind`, slicing, `json.loads`, `json.dumps`)
are given executable Lean models; the repository's own functions
(`ToolHandler.extract_and_process_tool_request`, `ChatSession.process_message`,
`MCPToolAgent.get_tool_schema`, `chat_completions`, `create_system_prompt`)
are shallowly embedded from their sources.
-/

namespace MCP

/-- Index of the first occurrence of `c`, if any. -/
def firstIdx (s : List Char) (c : Char) : Option Nat :=
  match s with
  | [] => none
  | a :: rest => if a = c then some 0 else (firstIdx rest c).map (· + 1)

/-- Index of the last occurrence of `c`, if any. -/
def lastIdx (s : List Char) (c : Char) : Option Nat :=
  match s with
  | [] => none
  | a :: rest =>
    match lastIdx rest c with
    | some i => some (i + 1)
    | none => if a = c then some 0 else none

/-- Model of Python `str.find(c)`: index of the first occurrence, `-1` if absent. -/
def pyFind (s : List Char) (c : Char) : Int :=
  match firstIdx s c with
  | some i => (i : Int)
  | none => -1

/-- Model of Python `str.rfind(c)`: index of the last occurrence, `-1` if absent. -/
def pyRFind (s : List Char) (c : Char) : Int :=
  match lastIdx s c with
  | some i => (i : Int)
  | none => -1

/-- Model of Python slicing `s[a:b]` for the in-range indices the code reaches
(non-negative bounds, clamped). -/
def pySlice (s : List Char) (a b : Int) : List Char :=
  (s.take b.toNat).drop a.toNat

/-- JSON values as produced by `json.loads` (object member order and duplicate
keys are kept in parse order; a Python dict lookup takes the last binding). -/
inductive Json where
  | null : Json
  | bool (b : Bool) : Json
  | num (n : Int) : Json
  | str (s : List Char) : Json
  | arr (elems : List Json) : Json
  | obj (members : List (List Char × Json)) : Json

/-- Python dict lookup on the member list produced by `json.loads`: with
duplicate keys the last binding wins. -/
def dictGet (members : List (List Char × Json)) (key : List Char) : Option Json :=
  match members.reverse.find? (fun m => m.1 == key) with
  | some m => some m.2
  | none => none

/-- JSON whitespace skipping (space, tab, newline, carriage return). -/
def skipWs : List Char → List Char
  | [] => []
  | c :: rest => if c = ' ' ∨ c = '\t' ∨ c = '\n' ∨ c = '\r' then skipWs rest else c :: rest

/-- Parse the body of a JSON string (after the opening quote), handling the
simple escape sequences; returns the decoded characters and the input after
the closing quote. -/
def parseStringBody : List Char → Option (List Char × List Char)
  | [] => none
  | c :: rest =>
    if c = '"' then some ([], rest)
    else if c = '\\' then
      match rest with
      | [] => none
      | e :: rest2 =>
        let dec : Option Char :=
          if e = '"' then some '"'
          else if e = '\\' then some '\\'
          else if e = '/' then some '/'
          else if e = 'n' then some '\n'
          else if e = 't' then some '\t'
          else if e = 'r' then some '\r'
          else none
        match dec with
        | none => none
        | some d =>
          match parseStringBody rest2 with
          | some (body, rem) => some (d :: body, rem)
          | none => none
    else
      match parseStringBody rest with
      | some (body, rem) => some (c :: body, rem)
      | none => none

/-- Take a maximal run of decimal digits. -/
def takeDigits : List Char → List Char × List Char
  | [] => ([], [])
  | c :: rest =>
    if c.isDigit then
      let (ds, rem) := takeDigits rest
      (c :: ds, rem)
    else ([], c :: rest)

/-- Decimal value of a digit run. -/
def digitsToNat : List Char → Nat
  | [] => 0
  | ds => ds.foldl (fun acc c => acc * 10 + (c.toNat - '0'.toNat)) 0

/-- Whether a list of characters starts with the given prefix. -/
def startsWith (s pre : List Char) : Bool :=
  pre.isPrefixOf s

mutual

/-- Recursive-descent model of `json.loads`'s value parser (integers only; no
floats or `\u` escapes, which the repository never feeds it). Returns the
value and the unconsumed rest. `fuel` bounds recursion depth. -/
def parseValue : Nat → List Char → Option (Json × List Char)
  | 0, _ => none
  | fuel + 1, s =>
    let s := skipWs s
    match s with
    | [] => none
    | c :: rest =>
      if c = '{' then
        parseMembers fuel (skipWs rest) true
      else if c = '[' then
        parseElements fuel (skipWs rest) true
      else if c = '"' then
        match parseStringBody rest with
        | some (body, rem) => some (Json.str body, rem)
        | none => none
      else if c = 't' then
        if startsWith rest ['r', 'u', 'e'] then some (Json.bool true, rest.drop 3) else none
      else if c = 'f' then
        if startsWith rest ['a', 'l', 's', 'e'] then some (Json.bool false, rest.drop 4) else none
      else if c = 'n' then
        if startsWith rest ['u', 'l', 'l'] then some (Json.null, rest.drop 3) else none
      else if c = '-' then
        match takeDigits rest with
        | ([], _) => none
        | (ds, rem) => some (Json.num (-(digitsToNat ds : Int)), rem)
      else if c.isDigit then
        match takeDigits (c :: rest) with
        | ([], _) => none
        | (ds, rem) => some (Json.num (digitsToNat ds : Int), rem)
      else none

/-- Parse object members; `first` is true before any member has been read
(so `}` immediately closes the object). The input starts after `{` (and any
following whitespace, or after a `,`). -/
def parseMembers (fuel : Nat) (s : List Char) (first : Bool) :
    Option (Json × List Char) :=
  match fuel, s with
  | _, [] => none
  | 0, _ => none
  | fuel + 1, c :: rest =>
    if first ∧ c = '}' then some (Json.obj [], rest)
    else if c = '"' then
      match parseStringBody rest with
      | none => none
      | some (key, rem) =>
        match skipWs rem with
        | ':' :: rem2 =>
          match parseValue fuel rem2 with
          | none => none
          | some (v, rem3) =>
            match skipWs rem3 with
            | '}' :: rem4 => some (Json.obj [(key, v)], rem4)
            | ',' :: rem4 =>
              match parseMembers fuel (skipWs rem4) false with
              | some (Json.obj ms, rem5) => some (Json.obj ((key, v) :: ms), rem5)
              | _ => none
            | _ => none
        | _ => none
    else none

/-- Parse array elements; `first` is true before any element has been read. -/
def parseElements (fuel : Nat) (s : List Char) (first : Bool) :
    Option (Json × List Char) :=
  match fuel, s with
  | _, [] => none
  | 0, _ => none
  | fuel + 1, c :: rest =>
    if first ∧ c = ']' then some (Json.arr [], rest)
    else
      match parseValue fuel (c :: rest) with
      | none => none
      | some (v, rem) =>
        match skipWs rem with
        | ']' :: rem2 => some (Json.arr [v], rem2)
        | ',' :: rem2 =>
          match parseElements fuel rem2 false with
          | some (Json.arr vs, rem3) => some (Json.arr (v :: vs), rem3)
          | _ => none
        | _ => none

end

/-- Model of `json.loads`: parse one JSON document and require only
whitespace after it (Python raises `Extra data` otherwise); `none` models a
raised `json.JSONDecodeError`. -/
def json_loads (s : List Char) : Option Json :=
  match parseValue (s.length + 1) s with
  | some (v, rest) => if skipWs rest = [] then some v else none
  | none => none

/-- JSON string escaping used by `json.dumps` (for the characters the
repository's data can contain). -/
def escapeJson : List Char → List Char
  | [] => []
  | c :: rest =>
    (if c = '"' then ['\\', '"']
     else if c = '\\' then ['\\', '\\']
     else if c = '\n' then ['\\', 'n']
     else if c = '\t' then ['\\', 't']
     else if c = '\r' then ['\\', 'r']
     else [c]) ++ escapeJson rest

/-- `", ".join`-style separator interposition. -/
def joinSep (sep : List Char) : List (List Char) → List Char
  | [] => []
  | [x] => x
  | x :: rest => x ++ sep ++ joinSep sep rest

/-- Indentation of `2 * level` spaces, as `json.dumps(..., indent=2)` emits. -/
def indentOf (level : Nat) : List Char :=
  List.replicate (2 * level) ' '

mutual

/-- Model of `json.dumps(v, indent=2)` at nesting `level`: non-empty
containers spread members over lines with two-space indentation, item
separator `\x2c\n`, key separator `: `; empty containers stay inline. -/
def dumpsInd : Nat → Json → List Char
  | _, Json.null => "null".toList
  | _, Json.bool true => "true".toList
  | _, Json.bool false => "false".toList
  | _, Json.num n => (toString n).toList
  | _, Json.str s => '"' :: escapeJson s ++ ['"']
  | _, Json.arr [] => ['[', ']']
  | level, Json.arr (e :: es) =>
      ['[', '\n'] ++
        joinSep (',' :: '\n' :: []) (dumpsIndElems (level + 1) (e :: es)) ++
        '\n' :: indentOf level ++ [']']
  | _, Json.obj [] => ['{', '}']
  | level, Json.obj (m :: ms) =>
      ['{', '\n'] ++
        joinSep (',' :: '\n' :: []) (dumpsIndMembers (level + 1) (m :: ms)) ++
        '\n' :: indentOf level ++ ['}']

/-- Rendered array elements at the given level, each carrying its indent. -/
def dumpsIndElems (level : Nat) : List Json → List (List Char)
  | [] => []
  | e :: es => (indentOf level ++ dumpsInd level e) :: dumpsIndElems level es

/-- Rendered object members at the given level, each carrying its indent. -/
def dumpsIndMembers (level : Nat) : List (List Char × Json) → List (List Char)
  | [] => []
  | (k, v) :: ms =>
      (indentOf level ++ '"' :: escapeJson k ++ '"' :: ':' :: ' ' :: dumpsInd level v) ::
        dumpsIndMembers level ms

end

mutual

/-- Model of compact `json.dumps(v)` with the default separators
`\x2c ` and `: `. -/
def dumps : Json → List Char
  | Json.null => "null".toList
  | Json.bool true => "true".toList
  | Json.bool false => "false".toList
  | Json.num n => (toString n).toList
  | Json.str s => '"' :: escapeJson s ++ ['"']
  | Json.arr es => '[' :: joinSep (',' :: ' ' :: []) (dumpsElems es) ++ [']']
  | Json.obj ms => '{' :: joinSep (',' :: ' ' :: []) (dumpsMembers ms) ++ ['}']

/-- Compactly rendered array elements. -/
def dumpsElems : List Json → List (List Char)
  | [] => []
  | e :: es => dumps e :: dumpsElems es

/-- Compactly rendered object members. -/
def dumpsMembers : List (List Char × Json) → List (List Char)
  | [] => []
  | (k, v) :: ms => ('"' :: escapeJson k ++ '"' :: ':' :: ' ' :: dumps v) :: dumpsMembers ms

end

mutual

/-- Model of Python `repr` on a `json.loads` result (used by `str` on
containers): strings get single quotes, `None`/`True`/`False` spelling. -/
def pyRepr : Json → List Char
  | Json.null => "None".toList
  | Json.bool true => "True".toList
  | Json.bool false => "False".toList
  | Json.num n => (toString n).toList
  | Json.str s => '\'' :: s ++ ['\'']
  | Json.arr es => '[' :: joinSep (',' :: ' ' :: []) (pyReprElems es) ++ [']']
  | Json.obj ms => '{' :: joinSep (',' :: ' ' :: []) (pyReprMembers ms) ++ ['}']

/-- `repr`-rendered list elements. -/
def pyReprElems : List Json → List (List Char)
  | [] => []
  | e :: es => pyRepr e :: pyReprElems es

/-- `repr`-rendered dict members. -/
def pyReprMembers : List (List Char × Json) → List (List Char)
  | [] => []
  | (k, v) :: ms => ('\'' :: k ++ '\'' :: ':' :: ' ' :: pyRepr v) :: pyReprMembers ms

end

/-- Model of Python `str()` on a `json.loads` result, as an f-string
interpolates it: a string is its raw text, containers use `repr`. -/
def pyStr : Json → List Char
  | Json.str s => s
  | j => pyRepr j

/-- `True` exactly for a JSON string equal to `t` (Python `==` between a
parsed value and a string literal). -/
def Json.isStrEq : Json → List Char → Bool
  | Json.str s, t => s == t
  | _, _ => false

/-- Conversation roles; tool results are injected as `system`-role messages
(`SystemMessage` / `HumanMessage` / `AIMessage` in the code). -/
inductive Role where
  | system : Role
  | user : Role
  | assistant : Role
deriving DecidableEq, Repr

/-- One conversation message. -/
structure Message where
  role : Role
  content : List Char
deriving DecidableEq, Repr

/-- The tool-registry client (`MCPToolClient`) as the tool handler calls it:
each call either returns a JSON-compatible value or raises, `.error e`
carrying `str(e)`.  The handler passes the parsed `tool_name` / `arguments`
values straight through, so both are `Json`. -/
structure Registry where
  getToolSchema : Json → Except (List Char) Json
  executeTool : Json → Json → Except (List Char) Json

/-- A validated tool-call descriptor: the data the dispatcher acts on once
`tool_request` and the required fields are present. -/
inductive Descriptor where
  | schemaReq (toolName : Json) : Descriptor
  | executeReq (toolName : Json) (args : Json) : Descriptor

/-- The raw extraction stage of `extract_and_process_tool_request`
(src/client/tool_handler.py lines 33-41): first `\x7b`, last `\x7d`, parse
the enclosed slice, and keep the object only when it has a `tool_request`
key.  Returns the parsed object's members. -/
def extractToolRequestObj (text : List Char) : Option (List (List Char × Json)) :=
  let json_start := pyFind text '{'
  let json_end := pyRFind text '}' + 1
  if json_start ≥ 0 ∧ json_end > json_start then
    match json_loads (pySlice text json_start json_end) with
    | some (Json.obj ms) =>
      match dictGet ms ("tool_request".toList) with
      | some _ => some ms
      | none => none
    | _ => none
  else none

/-- The Tool-Call Extractor: extraction plus field validation
(src/client/tool_handler.py lines 33-44 and 76-79).  Yields a descriptor
only when `tool_request` is `"schema"` with `tool_name` present, or
`"execute"` with `tool_name` and `arguments` present. -/
def extractDescriptor (text : List Char) : Option Descriptor :=
  let json_start := pyFind text '{'
  let json_end := pyRFind text '}' + 1
  if json_start ≥ 0 ∧ json_end > json_start then
    match json_loads (pySlice text json_start json_end) with
    | some (Json.obj ms) =>
      match dictGet ms ("tool_request".toList) with
      | some req =>
        if req.isStrEq ("schema".toList) then
          match dictGet ms ("tool_name".toList) with
          | some tn => some (Descriptor.schemaReq tn)
          | none => none
        else if req.isStrEq ("execute".toList) then
          match dictGet ms ("tool_name".toList), dictGet ms ("arguments".toList) with
          | some tn, some args => some (Descriptor.executeReq tn args)
          | _, _ => none
        else none
      | none => none
    | _ => none
  else none

/-- `ToolHandler.extract_and_process_tool_request` of
src/client/tool_handler.py, on the response-handler path (console
formatting skipped).  Returns the updated message history and the returned
bool.  A missing `tool_name`/`arguments` raises `KeyError` outside the
inner `try`, so the outer `except` returns `False` with nothing appended;
registry failures are caught by the inner `try`, which appends an error
system message and returns `True`. -/
def extract_and_process_tool_request (reg : Registry) (text : List Char)
    (messages : List Message) : List Message × Bool :=
  let json_start := pyFind text '{'
  let json_end := pyRFind text '}' + 1
  if json_start ≥ 0 ∧ json_end > json_start then
    let json_str := pySlice text json_start json_end
    match json_loads json_str with
    | some (Json.obj tool_request) =>
      match dictGet tool_request ("tool_request".toList) with
      | some req =>
        if req.isStrEq ("schema".toList) then
          match dictGet tool_request ("tool_name".toList) with
          | none => (messages, false)
          | some tool_name =>
            match reg.getToolSchema tool_name with
            | Except.ok schema =>
                (messages ++ [⟨Role.system,
                  ("Use the following schema for tool '".toList ++ pyStr tool_name ++
                    "':\n".toList ++ dumpsInd 0 schema)⟩], true)
            | Except.error e =>
                (messages ++ [⟨Role.system, ("Error getting schema: ".toList ++ e)⟩], true)
        else if req.isStrEq ("execute".toList) then
          match dictGet tool_request ("tool_name".toList),
                dictGet tool_request ("arguments".toList) with
          | some tool_name, some arguments =>
            match reg.executeTool tool_name arguments with
            | Except.ok result =>
                (messages ++ [⟨Role.system,
                  ("This is the result of executing '".toList ++ pyStr tool_name ++
                    "':\n".toList ++ dumpsInd 0 result)⟩], true)
            | Except.error e =>
                (messages ++ [⟨Role.system, ("Error executing tool: ".toList ++ e)⟩], true)
          | _, _ => (messages, false)
        else (messages, false)
      | none => (messages, false)
    | some _ => (messages, false)
    | none => (messages, false)
  else (messages, false)

/-- `ToolHandler.extract_and_process_tool_request` of src/tool_handler.py
(the root variant): same control flow, compact `json.dumps`, message
formats `Tool schema for <name>: <json>` / `Tool execution result: <json>`,
returning the `(is_tool_request, should_continue)` pair. -/
def extract_and_process_tool_request_v0 (reg : Registry) (assistant_message : List Char)
    (messages : List Message) : List Message × (Bool × Bool) :=
  let json_start := pyFind assistant_message '{'
  let json_end := pyRFind assistant_message '}' + 1
  if json_start ≥ 0 ∧ json_end > json_start then
    let json_str := pySlice assistant_message json_start json_end
    match json_loads json_str with
    | some (Json.obj tool_request) =>
      match dictGet tool_request ("tool_request".toList) with
      | some req =>
        if req.isStrEq ("schema".toList) then
          match dictGet tool_request ("tool_name".toList) with
          | none => (messages, (false, false))
          | some tool_name =>
            match reg.getToolSchema tool_name with
            | Except.ok schema =>
                (messages ++ [⟨Role.system,
                  ("Tool schema for ".toList ++ pyStr tool_name ++ ": ".toList ++
                    dumps schema)⟩], (true, true))
            | Except.error e =>
                (messages ++ [⟨Role.system, ("Error getting schema: ".toList ++ e)⟩],
                  (true, true))
        else if req.isStrEq ("execute".toList) then
          match dictGet tool_request ("tool_name".toList),
                dictGet tool_request ("arguments".toList) with
          | some tool_name, some arguments =>
            match reg.executeTool tool_name arguments with
            | Except.ok result =>
                (messages ++ [⟨Role.system,
                  ("Tool execution result: ".toList ++ dumps result)⟩], (true, true))
            | Except.error e =>
                (messages ++ [⟨Role.system, ("Error executing tool: ".toList ++ e)⟩],
                  (true, true))
          | _, _ => (messages, (false, false))
        else (messages, (false, false))
      | none => (messages, (false, false))
    | some _ => (messages, (false, false))
    | none => (messages, (false, false))
  else (messages, (false, false))

/-- The spec's Tool-Call Dispatcher (section 4.2), client message formats:
given an extracted descriptor, call the registry and produce the one system
message to append plus the continuation flag; `none` descriptor means no
action and no continuation. -/
def dispatch (reg : Registry) : Option Descriptor → List Message → List Message × Bool
  | none, msgs => (msgs, false)
  | some (Descriptor.schemaReq tn), msgs =>
    match reg.getToolSchema tn with
    | Except.ok schema =>
        (msgs ++ [⟨Role.system,
          ("Use the following schema for tool '".toList ++ pyStr tn ++
            "':\n".toList ++ dumpsInd 0 schema)⟩], true)
    | Except.error e =>
        (msgs ++ [⟨Role.system, ("Error getting schema: ".toList ++ e)⟩], true)
  | some (Descriptor.executeReq tn args), msgs =>
    match reg.executeTool tn args with
    | Except.ok result =>
        (msgs ++ [⟨Role.system,
          ("This is the result of executing '".toList ++ pyStr tn ++
            "':\n".toList ++ dumpsInd 0 result)⟩], true)
    | Except.error e =>
        (msgs ++ [⟨Role.system, ("Error executing tool: ".toList ++ e)⟩], true)

/-- The dispatcher with the root-variant message formats
(src/tool_handler.py), continuation flag pair `(is_tool_request,
should_continue)`. -/
def dispatchV0 (reg : Registry) : Option Descriptor → List Message → List Message × (Bool × Bool)
  | none, msgs => (msgs, (false, false))
  | some (Descriptor.schemaReq tn), msgs =>
    match reg.getToolSchema tn with
    | Except.ok schema =>
        (msgs ++ [⟨Role.system,
          ("Tool schema for ".toList ++ pyStr tn ++ ": ".toList ++ dumps schema)⟩],
          (true, true))
    | Except.error e =>
        (msgs ++ [⟨Role.system, ("Error getting schema: ".toList ++ e)⟩], (true, true))
  | some (Descriptor.executeReq tn args), msgs =>
    match reg.executeTool tn args with
    | Except.ok result =>
        (msgs ++ [⟨Role.system, ("Tool execution result: ".toList ++ dumps result)⟩],
          (true, true))
    | Except.error e =>
        (msgs ++ [⟨Role.system, ("Error executing tool: ".toList ++ e)⟩], (true, true))

/-- One scripted turn of the streaming LLM: the chunks it emits, then
optionally a raised exception (`failure = some e` with `e` = `str(e)`)
after the last chunk. -/
structure TurnScript where
  chunks : List (List Char)
  failure : Option (List Char)

/-- The state `ChatSession.process_message` mutates on the
response-handler path: the session's message history and the
`APIResponseHandler`'s accumulated `content`. -/
structure SessionState where
  messages : List Message
  handlerContent : List Char
deriving DecidableEq, Repr

/-- `response_content` accumulation inside one stream cycle: each chunk
with truthy (non-empty) content is appended, both to `response_content`
and to the handler. -/
def accumulate (chunks : List (List Char)) : List Char :=
  chunks.foldl (fun acc c => if c ≠ [] then acc ++ c else acc) []

/-- The `while tool_processing` loop of `ChatSession.process_message`
(src/client/chat_session.py lines 48-83), response-handler path, with the
LLM stream given as one `TurnScript` per cycle.  Each normal cycle appends
the accumulated text as an assistant message and runs the tool handler; a
raised stream exception forwards `Error during streaming: <e>` to the
handler, appends no assistant message, and ends the loop.  The returned
flag is `true` when the loop terminated itself and `false` only in the
model-artifact case that the script ran out first. -/
def processLoop (reg : Registry) : List TurnScript → SessionState → SessionState × Bool
  | [], st => (st, false)
  | s :: rest, st =>
    let response_content := accumulate s.chunks
    match s.failure with
    | some e =>
        ({ messages := st.messages,
           handlerContent := st.handlerContent ++ response_content ++
             ("Error during streaming: ".toList ++ e) }, true)
    | none =>
        let appended := st.messages ++ [⟨Role.assistant, response_content⟩]
        let step := extract_and_process_tool_request reg response_content appended
        let st2 : SessionState :=
          { messages := step.1,
            handlerContent := st.handlerContent ++ response_content }
        if step.2 then processLoop reg rest st2 else (st2, true)

/-- `ChatSession.process_message` on the response-handler path: append the
user message, then run the tool loop.  The text returned to the caller is
the final state's `handlerContent` (`response_handler.get_content()`). -/
def process_message (reg : Registry) (scripts : List TurnScript) (user_input : List Char)
    (st : SessionState) : SessionState × Bool :=
  processLoop reg scripts
    { st with messages := st.messages ++ [⟨Role.user, user_input⟩] }

/-- One tool as the MCP server's `list_tools` reports it. -/
structure ToolDef where
  name : List Char
  description : Json
  inputSchema : Json

/-- `MCPToolAgent` state (src/tool_agent.py): `session = none` models the
unconnected agent, `some tools` a connected session whose `list_tools()`
returns `tools`; `tools_cache` is the per-session schema cache.
`listToolsCalls` instruments the model by counting registry round-trips
(`session.list_tools()` calls), which the claim counts. -/
structure AgentState where
  session : Option (List ToolDef)
  tools_cache : List (List Char × Json)
  listToolsCalls : Nat

/-- `MCPToolAgent.get_tool_schema` (src/tool_agent.py lines 45-66): serve
from the cache when present; otherwise one `list_tools()` round-trip, a
linear scan for the first tool of that name, building and caching
`\x7bname, description, parameters\x7d`, or `ValueError` when absent. -/
def get_tool_schema (st : AgentState) (tool_name : List Char) :
    Except (List Char) Json × AgentState :=
  match dictGet st.tools_cache tool_name with
  | some schema => (Except.ok schema, st)
  | none =>
    match st.session with
    | none => (Except.error ("Not connected to MCP server".toList), st)
    | some tools =>
      let st1 := { st with listToolsCalls := st.listToolsCalls + 1 }
      match tools.find? (fun t => t.name == tool_name) with
      | some t =>
          let schema := Json.obj
            [("name".toList, Json.str t.name),
             ("description".toList, t.description),
             ("parameters".toList, t.inputSchema)]
          (Except.ok schema,
            { st1 with tools_cache := st1.tools_cache ++ [(tool_name, schema)] })
      | none =>
          (Except.error ("Tool '".toList ++ tool_name ++ "' not found".toList), st1)

/-- `create_system_prompt` (src/client/mcp_adapter_prompt.py): the session
system prompt generated from the available tool names. -/
def create_system_prompt (tool_names : List (List Char)) : List Char :=
  let quoted_tool_names := tool_names.map (fun t => '"' :: t ++ ['"'])
  let tools_list := joinSep (", ".toList) quoted_tool_names
  "\nYou are a friendly assistant with access to the following tools: ".toList ++
    tools_list ++
    ".\n\n**If a tool is required and no schema exists, respond ONLY with:**\n```json\n\x7b\n  \"tool_request\": \"schema\",\n  \"tool_name\": (one of) [".toList ++
    tools_list ++
    "]\n\x7d\n```\n\n**Once the schema is received, respond ONLY as follows:**\n```json\n\x7b\n  \"tool_request\": \"execute\",\n  \"tool_name\": (must be one of) [".toList ++
    tools_list ++
    "],\n  \"arguments\": \x7b\x7d \n\x7d\n```\n\n**STRICT RULES:**\n- Only request schemas for tools explicitly listed.\n- Do not invent or assume tool names\n- Do not invent arguments for tools\n- If unsure, request clarification instead of making assumptions.\n\n**If no tool is needed, proceed with a normal human-friendly response.** \n".toList

/-- An OpenAI-style request message as the HTTP endpoint receives it. -/
structure ChatMessage where
  role : List Char
  content : List Char

/-- The request-message conversion loop of `chat_completions`
(src/api_server.py lines 93-101): system messages skipped, user and
assistant kept in order, any other role dropped. -/
def convert_messages : List ChatMessage → List (List Char × List Char)
  | [] => []
  | m :: rest =>
    if m.role == "system".toList then convert_messages rest
    else if m.role == "user".toList then
      ("user".toList, m.content) :: convert_messages rest
    else if m.role == "assistant".toList then
      ("assistant".toList, m.content) :: convert_messages rest
    else convert_messages rest

/-- `next((m["content"] for m in reversed(messages) if m["role"] == "user"), None)`. -/
def last_user_message (converted : List (List Char × List Char)) : Option (List Char) :=
  match converted.reverse.find? (fun m => m.1 == "user".toList) with
  | some m => some m.2
  | none => none

/-- `parse_model_string` (src/api_server.py lines 76-85): split on the
first slash; provider defaults to `groq`. -/
def parse_model_string (model_string : List Char) : List Char × List Char :=
  match model_string.findIdx? (· == '/') with
  | some i => (model_string.take i, model_string.drop (i + 1))
  | none => ("groq".toList, model_string)

/-- The request-handling prefix of `chat_completions` (src/api_server.py
lines 87-126), up to session creation: parse the model string, convert the
request messages, pick the last user message (`if not last_user_message`
also fires on an empty string), check the provider, and build the fresh
`ChatSession` whose history starts with its own system prompt.  `.ok`
carries the new session's initial message list and the user input handed
to `process_message`; `.error` carries the returned error text; LLM
construction itself is abstracted away. -/
def chat_completions (tool_names : List (List Char)) (model : List Char)
    (request_messages : List ChatMessage) : Except (List Char) (List Message × List Char) :=
  let provider := (parse_model_string model).1
  let messages := convert_messages request_messages
  match last_user_message messages with
  | none => Except.error ("No user message found".toList)
  | some content =>
    if content = [] then Except.error ("No user message found".toList)
    else if provider = "openai".toList ∨ provider = "azure".toList ∨
        provider = "ollama".toList ∨ provider = "groq".toList then
      Except.ok ([⟨Role.system, create_system_prompt tool_names⟩], content)
    else Except.error ("Unsupported provider: ".toList ++ provider)

/-- The last user-role message's content in an OpenAI-style request, by
direct recursion; the reference point for the endpoint's
`next((m for m in reversed(messages) if role == user), None)`. -/
def lastUserContent : List ChatMessage → Option (List Char)
  | [] => none
  | m :: rest =>
    match lastUserContent rest with
    | some c => some c
    | none => if m.role == "user".toList then some m.content else none

/-- Same recursion on converted `(role, content)` pairs. -/
def lastUserPair : List (List Char × List Char) → Option (List Char)
  | [] => none
  | m :: rest =>
    match lastUserPair rest with
    | some c => some c
    | none => if m.1 == "user".toList then some m.2 else none

/-- The `arguments` object of the spec's sample execute request. -/
def addArgsJson : List Char :=
  '{' :: "\"a\":5,\"b\":7".toList ++ ['}']

/-- The spec's sample execute request
`\x7b"tool_request":"execute","tool_name":"add","arguments":\x7b"a":5,"b":7\x7d\x7d`. -/
def addExecJson : List Char :=
  '{' :: "\"tool_request\":\"execute\",\"tool_name\":\"add\",\"arguments\":".toList ++
    addArgsJson ++ ['}']

/-- The sample execute request without its final closing brace. -/
def addExecFront : List Char :=
  addExecJson.dropLast

/-- A well-formed schema request for tool `add`. -/
def addSchemaJson : List Char :=
  '{' :: "\"tool_request\":\"schema\",\"tool_name\":\"add\"".toList ++ ['}']

/-- A malformed schema request: `tool_request` present, `tool_name` missing. -/
def badSchemaJson : List Char :=
  '{' :: "\"tool_request\": \"schema\"".toList ++ ['}']

/-- A malformed execute request: `arguments` missing. -/
def badExecJson : List Char :=
  '{' :: "\"tool_request\": \"execute\", \"tool_name\": \"add\"".toList ++ ['}']

/-- The descriptor the sample execute request denotes. -/
def addExecDescriptor : Descriptor :=
  Descriptor.executeReq (Json.str ("add".toList))
    (Json.obj [("a".toList, Json.num 5), ("b".toList, Json.num 7)])

/-- A concrete schema value for tool `add`. -/
def addSchema : Json :=
  Json.obj [("name".toList, Json.str ("add".toList)),
            ("description".toList, Json.str ("Add two numbers".toList)),
            ("parameters".toList, Json.obj [])]

/-- A concrete registry client knowing exactly the tool `add`. -/
def regAdd : Registry :=
  { getToolSchema := fun tn =>
      if tn.isStrEq ("add".toList) then Except.ok addSchema
      else Except.error ("Tool not found".toList),
    executeTool := fun tn _ =>
      if tn.isStrEq ("add".toList) then Except.ok (Json.num 12)
      else Except.error ("boom".toList) }

/-- A registry client whose every call raises. -/
def regDown : Registry :=
  { getToolSchema := fun _ => Except.error ("connection lost".toList),
    executeTool := fun _ _ => Except.error ("connection lost".toList) }

/-- A connected agent whose server lists exactly the tool `add`. -/
def agentW : AgentState :=
  { session := some [⟨"add".toList, Json.str ("adds numbers".toList), Json.obj []⟩],
    tools_cache := [],
    listToolsCalls := 0 }

/-- The client tool handler is exactly extract-then-dispatch: the embedded
code refines the spec's extractor/dispatcher factorisation. -/
theorem handler_eq_dispatch (reg : Registry) (text : List Char) (msgs : List Message) :
    extract_and_process_tool_request reg text msgs =
      dispatch reg (extractDescriptor text) msgs := by
  unfold extract_and_process_tool_request extractDescriptor
  dsimp only
  split
  · cases hload : json_loads (pySlice text (pyFind text '{') (pyRFind text '}' + 1)) with
    | none => rfl
    | some v =>
      cases v with
      | obj ms =>
        dsimp only
        cases hreq : dictGet ms ("tool_request".toList) with
        | none => rfl
        | some req =>
          by_cases hs : req.isStrEq ("schema".toList) = true
          · simp only [hs, if_true]
            cases htn : dictGet ms ("tool_name".toList) with
            | none => rfl
            | some tn => cases hgs : reg.getToolSchema tn <;> rfl
          · simp only [hs, if_false]
            by_cases hx : req.isStrEq ("execute".toList) = true
            · simp only [hx, if_true]
              cases htn : dictGet ms ("tool_name".toList) with
              | none => rfl
              | some tn =>
                cases ha : dictGet ms ("arguments".toList) with
                | none => rfl
                | some args => cases hex : reg.executeTool tn args <;> rfl
            · simp only [hx, if_false]
              rfl
      | null => rfl
      | bool b => rfl
      | num n => rfl
      | str s => rfl
      | arr es => rfl
  · rfl

/-- The root tool handler is the same extract-then-dispatch with its own
formats. -/
theorem handler_v0_eq_dispatch (reg : Registry) (text : List Char) (msgs : List Message) :
    extract_and_process_tool_request_v0 reg text msgs =
      dispatchV0 reg (extractDescriptor text) msgs := by
  unfold extract_and_process_tool_request_v0 extractDescriptor
  dsimp only
  split
  · cases hload : json_loads (pySlice text (pyFind text '{') (pyRFind text '}' + 1)) with
    | none => rfl
    | some v =>
      cases v with
      | obj ms =>
        dsimp only
        cases hreq : dictGet ms ("tool_request".toList) with
        | none => rfl
        | some req =>
          by_cases hs : req.isStrEq ("schema".toList) = true
          · simp only [hs, if_true]
            cases htn : dictGet ms ("tool_name".toList) with
            | none => rfl
            | some tn => cases hgs : reg.getToolSchema tn <;> rfl
          · simp only [hs, if_false]
            by_cases hx : req.isStrEq ("execute".toList) = true
            · simp only [hx, if_true]
              cases htn : dictGet ms ("tool_name".toList) with
              | none => rfl
              | some tn =>
                cases ha : dictGet ms ("arguments".toList) with
                | none => rfl
                | some args => cases hex : reg.executeTool tn args <;> rfl
            · simp only [hx, if_false]
              rfl
      | null => rfl
      | bool b => rfl
      | num n => rfl
      | str s => rfl
      | arr es => rfl
  · rfl

theorem firstIdx_eq_none_of_notMem (s : List Char) (c : Char) (h : c ∉ s) :
    firstIdx s c = none := by
  induction s with
  | nil => rfl
  | cons a t ih =>
    have ha : ¬ a = c := fun e => h (e ▸ List.mem_cons_self a t)
    have ht : c ∉ t := fun hm => h (List.mem_cons_of_mem a hm)
    simp [firstIdx, ha, ih ht]

theorem lastIdx_eq_none_of_notMem (s : List Char) (c : Char) (h : c ∉ s) :
    lastIdx s c = none := by
  induction s with
  | nil => rfl
  | cons a t ih =>
    have ha : ¬ a = c := fun e => h (e ▸ List.mem_cons_self a t)
    have ht : c ∉ t := fun hm => h (List.mem_cons_of_mem a hm)
    simp [lastIdx, ha, ih ht]

theorem pyFind_eq_neg_one (s : List Char) (c : Char) (h : c ∉ s) :
    pyFind s c = -1 := by
  unfold pyFind
  rw [firstIdx_eq_none_of_notMem s c h]

theorem pyRFind_eq_neg_one (s : List Char) (c : Char) (h : c ∉ s) :
    pyRFind s c = -1 := by
  unfold pyRFind
  rw [lastIdx_eq_none_of_notMem s c h]

theorem firstIdx_append_cons (pre mid : List Char) (c : Char) (h : c ∉ pre) :
    firstIdx (pre ++ c :: mid) c = some pre.length := by
  induction pre with
  | nil => simp [firstIdx]
  | cons a t ih =>
    have ha : ¬ a = c := fun e => h (e ▸ List.mem_cons_self a t)
    have ht : c ∉ t := fun hm => h (List.mem_cons_of_mem a hm)
    simp [firstIdx, ha, ih ht]

theorem lastIdx_append_of_notMem (init post : List Char) (c : Char) (h : c ∉ post) :
    lastIdx (init ++ post) c = lastIdx init c := by
  induction init with
  | nil => simpa [lastIdx] using lastIdx_eq_none_of_notMem post c h
  | cons a t ih => simp [lastIdx, ih]

theorem lastIdx_concat (l : List Char) (c : Char) :
    lastIdx (l ++ [c]) c = some l.length := by
  induction l with
  | nil => simp [lastIdx]
  | cons a t ih => simp [lastIdx, ih]

theorem pySlice_middle (pre mid post : List Char) :
    pySlice ((pre ++ mid) ++ post) (pre.length : Int) ((pre.length : Int) + (mid.length : Int)) =
      mid := by
  unfold pySlice
  have hb : ((pre.length : Int) + (mid.length : Int)).toNat = pre.length + mid.length := by
    omega
  have ha : ((pre.length : Int)).toNat = pre.length := Int.toNat_natCast _
  rw [hb, ha]
  have htake : ((pre ++ mid) ++ post).take (pre.length + mid.length) = pre ++ mid := by
    have := List.take_left (pre ++ mid) post
    simpa using this
  rw [htake]
  exact List.drop_left pre mid

/-- C5: for every assistant text with no `\x7b`, or no `\x7d`, or whose
first `\x7b` does not precede its last `\x7d` (i.e. the last `\x7d` sits
before the first `\x7b`), extraction yields no descriptor and the handler
returns the history unchanged with `should_continue = False` — the turn
ends as a final answer with no system message appended. -/
theorem no_brace_pair_extracts_nothing (reg : Registry) (text : List Char)
    (msgs : List Message)
    (h : '{' ∉ text ∨ '}' ∉ text ∨ pyRFind text '}' < pyFind text '{') :
    extractDescriptor text = none ∧
      extract_and_process_tool_request reg text msgs = (msgs, false) := by
  have hguard : ¬ (pyFind text '{' ≥ 0 ∧ pyRFind text '}' + 1 > pyFind text '{') := by
    rcases h with h | h | h
    · rw [pyFind_eq_neg_one text '{' h]
      omega
    · rw [pyRFind_eq_neg_one text '}' h]
      omega
    · omega
  have hnone : extractDescriptor text = none := by
    unfold extractDescriptor
    dsimp only
    rw [if_neg hguard]
  refine ⟨hnone, ?_⟩
  rw [handler_eq_dispatch, hnone]
  rfl

/-- Witness for C5 at the concrete text `It is sunny today.` -/
theorem no_brace_pair_extracts_nothing_witness :
    ('{' ∉ ("It is sunny today.".toList) ∨ '}' ∉ ("It is sunny today.".toList) ∨
      pyRFind ("It is sunny today.".toList) '}' < pyFind ("It is sunny today.".toList) '{') ∧
    (extractDescriptor ("It is sunny today.".toList) = none ∧
      extract_and_process_tool_request regAdd ("It is sunny today.".toList) [] = ([], false)) :=
  ⟨Or.inl (by decide),
    no_brace_pair_extracts_nothing regAdd ("It is sunny today.".toList) [] (Or.inl (by decide))⟩

/-- C1: for every extracted valid tool-call descriptor (schema-request or
execute-request), whether the registry call succeeds or raises, both
handler variants append exactly one new system message to the history and
signal continue, so the loop always records the tool outcome and never
terminates on a tool-level error. -/
theorem valid_descriptor_appends_one_system_message (reg : Registry) (text : List Char)
    (msgs : List Message) (d : Descriptor) (h : extractDescriptor text = some d) :
    (∃ m, extract_and_process_tool_request reg text msgs =
        (msgs ++ [⟨Role.system, m⟩], true)) ∧
    (∃ m, extract_and_process_tool_request_v0 reg text msgs =
        (msgs ++ [⟨Role.system, m⟩], (true, true))) := by
  rw [handler_eq_dispatch, handler_v0_eq_dispatch, h]
  cases d with
  | schemaReq tn =>
    constructor
    · unfold dispatch
      dsimp only
      cases hr : reg.getToolSchema tn with
      | ok schema => exact ⟨_, rfl⟩
      | error e => exact ⟨_, rfl⟩
    · unfold dispatchV0
      dsimp only
      cases hr : reg.getToolSchema tn with
      | ok schema => exact ⟨_, rfl⟩
      | error e => exact ⟨_, rfl⟩
  | executeReq tn args =>
    constructor
    · unfold dispatch
      dsimp only
      cases hr : reg.executeTool tn args with
      | ok result => exact ⟨_, rfl⟩
      | error e => exact ⟨_, rfl⟩
    · unfold dispatchV0
      dsimp only
      cases hr : reg.executeTool tn args with
      | ok result => exact ⟨_, rfl⟩
      | error e => exact ⟨_, rfl⟩

/-- Witness for C1 at the concrete schema request for `add` against the
concrete registry. -/
theorem valid_descriptor_appends_one_system_message_witness :
    extractDescriptor addSchemaJson = some (Descriptor.schemaReq (Json.str ("add".toList))) ∧
    ((∃ m, extract_and_process_tool_request regAdd addSchemaJson [] =
        ([] ++ [⟨Role.system, m⟩], true)) ∧
     (∃ m, extract_and_process_tool_request_v0 regAdd addSchemaJson [] =
        ([] ++ [⟨Role.system, m⟩], (true, true)))) :=
  ⟨rfl, valid_descriptor_appends_one_system_message regAdd addSchemaJson []
    (Descriptor.schemaReq (Json.str ("add".toList))) rfl⟩

/-- Inversion of a successful raw extraction: the brace guard held, the
slice parsed to exactly that object, and a `tool_request` key is present. -/
theorem extractObj_some_inv (text : List Char) (ms : List (List Char × Json))
    (h : extractToolRequestObj text = some ms) :
    (pyFind text '{' ≥ 0 ∧ pyRFind text '}' + 1 > pyFind text '{') ∧
    json_loads (pySlice text (pyFind text '{') (pyRFind text '}' + 1)) = some (Json.obj ms) ∧
    (∃ req, dictGet ms ("tool_request".toList) = some req) := by
  unfold extractToolRequestObj at h
  dsimp only at h
  by_cases hg : (pyFind text '{' ≥ 0 ∧ pyRFind text '}' + 1 > pyFind text '{')
  · rw [if_pos hg] at h
    refine ⟨hg, ?_⟩
    cases hl : json_loads (pySlice text (pyFind text '{') (pyRFind text '}' + 1)) with
    | none =>
      rw [hl] at h
      simp at h
    | some v =>
      rw [hl] at h
      cases v with
      | obj ms2 =>
        dsimp only at h
        cases hd : dictGet ms2 ("tool_request".toList) with
        | none =>
          rw [hd] at h
          simp at h
        | some req =>
          rw [hd] at h
          dsimp only at h
          simp only [Option.some.injEq] at h
          subst h
          exact ⟨rfl, req, hd⟩
      | null => simp at h
      | bool b => simp at h
      | num n => simp at h
      | str s => simp at h
      | arr es => simp at h
  · rw [if_neg hg] at h
    simp at h

/-- C3 counterexample: for the concrete text
`\x7b"tool_request": "schema"\x7d` — a schema request with `tool_name`
missing — the parsed object does carry `tool_request = "schema"` and no
`tool_name`, yet the handler appends no system message and returns
`False`: it does not behave like a dispatch error. -/
theorem missing_tool_name_counterexample :
    extractToolRequestObj badSchemaJson =
      some [("tool_request".toList, Json.str ("schema".toList))] ∧
    dictGet [("tool_request".toList, Json.str ("schema".toList))] ("tool_name".toList) = none ∧
    extract_and_process_tool_request regAdd badSchemaJson [] = ([], false) :=
  ⟨rfl, rfl, rfl⟩

/-- C3 (amended): for every extracted JSON object with
`tool_request = "schema"` but no `tool_name`, or `tool_request = "execute"`
but missing `tool_name` or `arguments`, the field access raises `KeyError`,
the outer `except` swallows it, and both handler variants append nothing
and signal no continuation — the turn ends silently rather than feeding an
error system message back. -/
theorem missing_required_fields_ends_turn_silently (reg : Registry) (text : List Char)
    (msgs : List Message) (ms : List (List Char × Json))
    (hobj : extractToolRequestObj text = some ms)
    (h : (dictGet ms ("tool_request".toList) = some (Json.str ("schema".toList)) ∧
            dictGet ms ("tool_name".toList) = none) ∨
         (dictGet ms ("tool_request".toList) = some (Json.str ("execute".toList)) ∧
            (dictGet ms ("tool_name".toList) = none ∨
             dictGet ms ("arguments".toList) = none))) :
    extract_and_process_tool_request reg text msgs = (msgs, false) ∧
    extract_and_process_tool_request_v0 reg text msgs = (msgs, (false, false)) := by
  obtain ⟨hg, hl, -⟩ := extractObj_some_inv text ms hobj
  have hnone : extractDescriptor text = none := by
    unfold extractDescriptor
    dsimp only
    rw [if_pos hg, hl]
    dsimp only
    rcases h with ⟨hreq, htn⟩ | ⟨hreq, hmiss⟩
    · rw [hreq]
      dsimp only
      rw [show (Json.str ("schema".toList)).isStrEq ("schema".toList) = true from rfl]
      simp only [if_true]
      rw [htn]
    · rw [hreq]
      dsimp only
      rw [show (Json.str ("execute".toList)).isStrEq ("schema".toList) = false from rfl,
        show (Json.str ("execute".toList)).isStrEq ("execute".toList) = true from rfl]
      simp only [if_false, if_true]
      rcases hmiss with htn | ha
      · rw [htn]
        cases hb : dictGet ms ("arguments".toList) <;> rfl
      · rw [ha]
        cases ht : dictGet ms ("tool_name".toList) <;> rfl
  constructor
  · rw [handler_eq_dispatch, hnone]
    rfl
  · rw [handler_v0_eq_dispatch, hnone]
    rfl

/-- Witness for the amended C3 at the concrete malformed schema request. -/
theorem missing_required_fields_ends_turn_silently_witness :
    extractToolRequestObj badSchemaJson =
      some [("tool_request".toList, Json.str ("schema".toList))] ∧
    (extract_and_process_tool_request regAdd badSchemaJson [] = ([], false) ∧
     extract_and_process_tool_request_v0 regAdd badSchemaJson [] = ([], (false, false))) :=
  ⟨rfl, missing_required_fields_ends_turn_silently regAdd badSchemaJson []
    [("tool_request".toList, Json.str ("schema".toList))] rfl (Or.inl ⟨rfl, rfl⟩)⟩

/-- C7: the client dispatcher produces system-message text in exactly the
four formats: schema success `Use the following schema for tool
'<name>':\n<json>`; schema failure `Error getting schema: <message>`;
execute success `This is the result of executing '<name>':\n<json>`;
execute failure `Error executing tool: <message>`. -/
theorem dispatcher_message_formats (reg : Registry) :
    (∀ text msgs tn schema, extractDescriptor text = some (Descriptor.schemaReq tn) →
        reg.getToolSchema tn = Except.ok schema →
        extract_and_process_tool_request reg text msgs =
          (msgs ++ [⟨Role.system,
            "Use the following schema for tool '".toList ++ pyStr tn ++
              "':\n".toList ++ dumpsInd 0 schema⟩], true)) ∧
    (∀ text msgs tn e, extractDescriptor text = some (Descriptor.schemaReq tn) →
        reg.getToolSchema tn = Except.error e →
        extract_and_process_tool_request reg text msgs =
          (msgs ++ [⟨Role.system, "Error getting schema: ".toList ++ e⟩], true)) ∧
    (∀ text msgs tn args result,
        extractDescriptor text = some (Descriptor.executeReq tn args) →
        reg.executeTool tn args = Except.ok result →
        extract_and_process_tool_request reg text msgs =
          (msgs ++ [⟨Role.system,
            "This is the result of executing '".toList ++ pyStr tn ++
              "':\n".toList ++ dumpsInd 0 result⟩], true)) ∧
    (∀ text msgs tn args e,
        extractDescriptor text = some (Descriptor.executeReq tn args) →
        reg.executeTool tn args = Except.error e →
        extract_and_process_tool_request reg text msgs =
          (msgs ++ [⟨Role.system, "Error executing tool: ".toList ++ e⟩], true)) := by
  refine ⟨?_, ?_, ?_, ?_⟩
  · intro text msgs tn schema hext hreg
    rw [handler_eq_dispatch, hext]
    unfold dispatch
    dsimp only
    rw [hreg]
  · intro text msgs tn e hext hreg
    rw [handler_eq_dispatch, hext]
    unfold dispatch
    dsimp only
    rw [hreg]
  · intro text msgs tn args result hext hreg
    rw [handler_eq_dispatch, hext]
    unfold dispatch
    dsimp only
    rw [hreg]
  · intro text msgs tn args e hext hreg
    rw [handler_eq_dispatch, hext]
    unfold dispatch
    dsimp only
    rw [hreg]

/-- Witness for C7: all four formats at concrete requests, against the
registry that knows `add` and the one whose calls raise. -/
theorem dispatcher_message_formats_witness :
    (extract_and_process_tool_request regAdd addSchemaJson [] =
      ([] ++ [⟨Role.system,
        "Use the following schema for tool '".toList ++ pyStr (Json.str ("add".toList)) ++
          "':\n".toList ++ dumpsInd 0 addSchema⟩], true)) ∧
    (extract_and_process_tool_request regDown addSchemaJson [] =
      ([] ++ [⟨Role.system, "Error getting schema: ".toList ++ "connection lost".toList⟩],
        true)) ∧
    (extract_and_process_tool_request regAdd addExecJson [] =
      ([] ++ [⟨Role.system,
        "This is the result of executing '".toList ++ pyStr (Json.str ("add".toList)) ++
          "':\n".toList ++ dumpsInd 0 (Json.num 12)⟩], true)) ∧
    (extract_and_process_tool_request regDown addExecJson [] =
      ([] ++ [⟨Role.system, "Error executing tool: ".toList ++ "connection lost".toList⟩],
        true)) :=
  ⟨(dispatcher_message_formats regAdd).1 addSchemaJson [] (Json.str ("add".toList))
      addSchema rfl rfl,
   (dispatcher_message_formats regDown).2.1 addSchemaJson [] (Json.str ("add".toList))
      ("connection lost".toList) rfl rfl,
   (dispatcher_message_formats regAdd).2.2.1 addExecJson [] (Json.str ("add".toList))
      (Json.obj [("a".toList, Json.num 5), ("b".toList, Json.num 7)]) (Json.num 12) rfl rfl,
   (dispatcher_message_formats regDown).2.2.2 addExecJson [] (Json.str ("add".toList))
      (Json.obj [("a".toList, Json.num 5), ("b".toList, Json.num 7)])
      ("connection lost".toList) rfl rfl⟩

/-- C6 counterexample: the well-formed execute request embedded with the
trailing prose ` \x7d` (arbitrary trailing text is allowed by the claim)
extracts nothing, although the bare request extracts the exact descriptor:
the first-`\x7b`/last-`\x7d` slice then covers the prose and fails to
parse. -/
theorem embedded_json_prose_counterexample :
    extractDescriptor (addExecJson ++ [' ', '}']) = none ∧
    extractDescriptor addExecJson = some addExecDescriptor :=
  ⟨rfl, rfl⟩

/-- C6 (amended): the well-formed execute request
`\x7b"tool_request":"execute","tool_name":"add","arguments":\x7b"a":5,"b":7\x7d\x7d`
embedded in surrounding prose extracts exactly that descriptor, provided
the leading text contains no `\x7b` and the trailing text contains no
`\x7d`. -/
theorem embedded_exec_json_extracts (pre post : List Char)
    (hpre : '{' ∉ pre) (hpost : '}' ∉ post) :
    extractDescriptor (pre ++ addExecJson ++ post) = some addExecDescriptor := by
  have h1 : pyFind (pre ++ addExecJson ++ post) '{' = (pre.length : Int) := by
    unfold pyFind
    have he : addExecJson ++ post = '{' :: (addExecJson.tail ++ post) := rfl
    rw [List.append_assoc, he, firstIdx_append_cons pre (addExecJson.tail ++ post) '{' hpre]
  have h2 : pyRFind (pre ++ addExecJson ++ post) '}' = (pre.length : Int) + 69 := by
    unfold pyRFind
    have hstep : lastIdx (pre ++ addExecJson ++ post) '}' = some (pre.length + 69) := by
      rw [lastIdx_append_of_notMem (pre ++ addExecJson) post '}' hpost]
      have hfr : addExecJson = addExecFront ++ ['}'] := rfl
      rw [hfr, ← List.append_assoc, lastIdx_concat (pre ++ addExecFront) '}']
      simp [List.length_append, show addExecFront.length = 69 from rfl]
    rw [hstep]
    push_cast
    ring
  have hcond : ((pre.length : Int) ≥ 0 ∧ (pre.length : Int) + 69 + 1 > (pre.length : Int)) := by
    omega
  have hsl : pySlice (pre ++ addExecJson ++ post) ((pre.length : Int))
      ((pre.length : Int) + 69 + 1) = addExecJson := by
    have h70 : ((pre.length : Int) + 69 + 1) = (pre.length : Int) + ((addExecJson.length : Nat) : Int) := by
      rw [show addExecJson.length = 70 from rfl]
      push_cast
      ring
    rw [h70]
    exact pySlice_middle pre addExecJson post
  unfold extractDescriptor
  dsimp only
  rw [h1, h2, if_pos hcond, hsl]
  rfl

/-- Witness for the amended C6 with concrete prose around the request. -/
theorem embedded_exec_json_extracts_witness :
    ('{' ∉ ("Sure, calling the tool now: ".toList) ∧
      '}' ∉ (" and that is all.".toList)) ∧
    extractDescriptor ("Sure, calling the tool now: ".toList ++ addExecJson ++
      " and that is all.".toList) = some addExecDescriptor :=
  ⟨⟨by decide, by decide⟩,
    embedded_exec_json_extracts ("Sure, calling the tool now: ".toList)
      (" and that is all.".toList) (by decide) (by decide)⟩

/-- A single-chunk stream cycle accumulates exactly that chunk. -/
theorem accumulate_single (t : List Char) : accumulate [t] = t := by
  by_cases h : t = [] <;> simp [accumulate, h]

/-- One successful stream cycle of the turn loop, in dispatcher form. -/
theorem processLoop_cons_ok (reg : Registry) (t : List Char) (rest : List TurnScript)
    (st : SessionState) :
    processLoop reg (⟨[t], none⟩ :: rest) st =
      (let msgs1 := st.messages ++ [⟨Role.assistant, t⟩]
       let step := dispatch reg (extractDescriptor t) msgs1
       let st2 : SessionState := ⟨step.1, st.handlerContent ++ t⟩
       if step.2 then processLoop reg rest st2 else (st2, true)) := by
  conv_lhs => rw [processLoop.eq_def]
  dsimp only
  rw [handler_eq_dispatch]
  simp only [accumulate_single]

/-- C9: a turn whose stream emits no tool request performs one stream
cycle, appends exactly the user message and one assistant message with the
accumulated text, and the caller receives that accumulated text. -/
theorem plain_text_turn_appends_two_messages (reg : Registry) (u : List Char)
    (chunks : List (List Char)) (rest : List TurnScript) (init : List Message)
    (h : extractDescriptor (accumulate chunks) = none) :
    process_message reg (⟨chunks, none⟩ :: rest) u ⟨init, []⟩ =
      (⟨init ++ [⟨Role.user, u⟩, ⟨Role.assistant, accumulate chunks⟩],
        accumulate chunks⟩, true) := by
  unfold process_message
  conv_lhs => rw [processLoop.eq_def]
  dsimp only
  rw [handler_eq_dispatch, h]
  simp [dispatch, List.append_assoc]

/-- Witness for C9 with a two-chunk plain-text stream. -/
theorem plain_text_turn_appends_two_messages_witness :
    extractDescriptor (accumulate ["Hello ".toList, "there".toList]) = none ∧
    process_message regAdd [⟨["Hello ".toList, "there".toList], none⟩] "hi".toList ⟨[], []⟩ =
      (⟨[] ++ [⟨Role.user, "hi".toList⟩,
          ⟨Role.assistant, accumulate ["Hello ".toList, "there".toList]⟩],
        accumulate ["Hello ".toList, "there".toList]⟩, true) :=
  ⟨rfl, plain_text_turn_appends_two_messages regAdd ("hi".toList)
    ["Hello ".toList, "there".toList] [] [] rfl⟩

/-- C4: a stream that raises mid-emission appends no assistant message —
the history stays exactly what it was after the user message — the error
indicator is forwarded to the caller's output channel after the partial
chunks, and the turn loop exits. -/
theorem stream_exception_discards_partial_text (reg : Registry) (u : List Char)
    (chunks : List (List Char)) (e : List Char) (rest : List TurnScript)
    (init : List Message) (h0 : List Char) :
    process_message reg (⟨chunks, some e⟩ :: rest) u ⟨init, h0⟩ =
      (⟨init ++ [⟨Role.user, u⟩],
        h0 ++ accumulate chunks ++ ("Error during streaming: ".toList ++ e)⟩, true) := by
  unfold process_message
  conv_lhs => rw [processLoop.eq_def]

/-- C2 (amended): in the schema-request / execute-request / plain-text
scenario the history gains exactly the six messages user,
assistant(schema-req), system(schema), assistant(execute-req),
system(result), assistant(final) in order, and the text returned to the
caller is the concatenation `t1 ++ t2 ++ t3` of all three assistant
outputs — not the final plain-text content alone. -/
theorem tool_loop_appends_six_messages (reg : Registry) (u t1 t2 t3 : List Char)
    (init : List Message) (tn1 tn2 args s r : Json)
    (h1 : extractDescriptor t1 = some (Descriptor.schemaReq tn1))
    (hs : reg.getToolSchema tn1 = Except.ok s)
    (h2 : extractDescriptor t2 = some (Descriptor.executeReq tn2 args))
    (hx : reg.executeTool tn2 args = Except.ok r)
    (h3 : extractDescriptor t3 = none) :
    process_message reg [⟨[t1], none⟩, ⟨[t2], none⟩, ⟨[t3], none⟩] u ⟨init, []⟩ =
      (⟨init ++ [⟨Role.user, u⟩, ⟨Role.assistant, t1⟩,
          ⟨Role.system, "Use the following schema for tool '".toList ++ pyStr tn1 ++
            "':\n".toList ++ dumpsInd 0 s⟩,
          ⟨Role.assistant, t2⟩,
          ⟨Role.system, "This is the result of executing '".toList ++ pyStr tn2 ++
            "':\n".toList ++ dumpsInd 0 r⟩,
          ⟨Role.assistant, t3⟩],
        t1 ++ t2 ++ t3⟩, true) := by
  unfold process_message
  rw [processLoop_cons_ok]
  dsimp only
  rw [h1]
  unfold dispatch
  dsimp only
  rw [hs]
  dsimp only
  rw [processLoop_cons_ok]
  dsimp only
  rw [h2]
  unfold dispatch
  dsimp only
  rw [hx]
  dsimp only
  rw [processLoop_cons_ok]
  dsimp only
  rw [h3]
  simp [dispatch, List.append_assoc]

/-- Witness for the amended C2 in the concrete scenario. -/
theorem tool_loop_appends_six_messages_witness :
    (extractDescriptor addSchemaJson = some (Descriptor.schemaReq (Json.str ("add".toList))) ∧
     regAdd.getToolSchema (Json.str ("add".toList)) = Except.ok addSchema ∧
     extractDescriptor addExecJson = some addExecDescriptor ∧
     regAdd.executeTool (Json.str ("add".toList))
       (Json.obj [("a".toList, Json.num 5), ("b".toList, Json.num 7)]) =
         Except.ok (Json.num 12) ∧
     extractDescriptor ("All done!".toList) = none) ∧
    process_message regAdd [⟨[addSchemaJson], none⟩, ⟨[addExecJson], none⟩,
        ⟨["All done!".toList], none⟩] "hi".toList ⟨[], []⟩ =
      (⟨[] ++ [⟨Role.user, "hi".toList⟩, ⟨Role.assistant, addSchemaJson⟩,
          ⟨Role.system, "Use the following schema for tool '".toList ++
            pyStr (Json.str ("add".toList)) ++ "':\n".toList ++ dumpsInd 0 addSchema⟩,
          ⟨Role.assistant, addExecJson⟩,
          ⟨Role.system, "This is the result of executing '".toList ++
            pyStr (Json.str ("add".toList)) ++ "':\n".toList ++ dumpsInd 0 (Json.num 12)⟩,
          ⟨Role.assistant, "All done!".toList⟩],
        addSchemaJson ++ addExecJson ++ "All done!".toList⟩, true) :=
  ⟨⟨rfl, rfl, rfl, rfl, rfl⟩,
    tool_loop_appends_six_messages regAdd ("hi".toList) addSchemaJson addExecJson
      ("All done!".toList) [] (Json.str ("add".toList)) (Json.str ("add".toList))
      (Json.obj [("a".toList, Json.num 5), ("b".toList, Json.num 7)]) addSchema (Json.num 12)
      rfl rfl rfl rfl rfl⟩

/-- C2 counterexample: in that very scenario the text returned to the
caller (the response handler's accumulated content) differs from the final
plain-text assistant content `All done!` — it is the concatenation of all
intermediate assistant outputs as well. -/
theorem tool_loop_return_value_counterexample :
    (process_message regAdd [⟨[addSchemaJson], none⟩, ⟨[addExecJson], none⟩,
        ⟨["All done!".toList], none⟩] "hi".toList ⟨[], []⟩).1.handlerContent ≠
      "All done!".toList := by
  decide

/-- A Python dict updated with a fresh key serves that key (the appended
binding is the last one, which wins). -/
theorem dictGet_append_last (cache : List (List Char × Json)) (k : List Char) (v : Json) :
    dictGet (cache ++ [(k, v)]) k = some v := by
  unfold dictGet
  rw [List.reverse_append]
  simp [List.find?]

/-- C8: when a `get_tool_schema` call succeeds, an immediately following
call for the same tool returns the identical schema from the session cache
without contacting the registry (the agent state, its round-trip counter
included, does not change), and the pair of calls performed at most one
`list_tools` round-trip in total. -/
theorem schema_cache_idempotent (st : AgentState) (tool_name : List Char) (s : Json)
    (st1 : AgentState) (h : get_tool_schema st tool_name = (Except.ok s, st1)) :
    get_tool_schema st1 tool_name = (Except.ok s, st1) ∧
    st1.listToolsCalls ≤ st.listToolsCalls + 1 := by
  unfold get_tool_schema at h ⊢
  cases hc : dictGet st.tools_cache tool_name with
  | some schema =>
    rw [hc] at h
    dsimp only at h
    injection h with h1 h2
    injection h1 with h1
    subst h1
    subst h2
    rw [hc]
    exact ⟨rfl, by omega⟩
  | none =>
    rw [hc] at h
    dsimp only at h
    cases hsess : st.session with
    | none =>
      rw [hsess] at h
      dsimp only at h
      injection h with h1 h2
      cases h1
    | some tools =>
      rw [hsess] at h
      dsimp only at h
      cases hf : tools.find? (fun t => t.name == tool_name) with
      | none =>
        rw [hf] at h
        dsimp only at h
        injection h with h1 h2
        cases h1
      | some t =>
        rw [hf] at h
        dsimp only at h
        injection h with h1 h2
        injection h1 with h1
        subst h1
        subst h2
        constructor
        · rw [dictGet_append_last]
        · dsimp only
          omega

/-- Witness for C8: the connected agent fetching `add` twice. -/
theorem schema_cache_idempotent_witness :
    get_tool_schema agentW ("add".toList) =
      (Except.ok (Json.obj
        [("name".toList, Json.str ("add".toList)),
         ("description".toList, Json.str ("adds numbers".toList)),
         ("parameters".toList, Json.obj [])]),
       { session := agentW.session,
         tools_cache := [("add".toList, Json.obj
           [("name".toList, Json.str ("add".toList)),
            ("description".toList, Json.str ("adds numbers".toList)),
            ("parameters".toList, Json.obj [])])],
         listToolsCalls := 1 }) ∧
    (get_tool_schema
        { session := agentW.session,
          tools_cache := [("add".toList, Json.obj
            [("name".toList, Json.str ("add".toList)),
             ("description".toList, Json.str ("adds numbers".toList)),
             ("parameters".toList, Json.obj [])])],
          listToolsCalls := 1 } ("add".toList) =
      (Except.ok (Json.obj
        [("name".toList, Json.str ("add".toList)),
         ("description".toList, Json.str ("adds numbers".toList)),
         ("parameters".toList, Json.obj [])]),
       { session := agentW.session,
         tools_cache := [("add".toList, Json.obj
           [("name".toList, Json.str ("add".toList)),
            ("description".toList, Json.str ("adds numbers".toList)),
            ("parameters".toList, Json.obj [])])],
         listToolsCalls := 1 }) ∧
     ({ session := agentW.session,
        tools_cache := [("add".toList, Json.obj
          [("name".toList, Json.str ("add".toList)),
           ("description".toList, Json.str ("adds numbers".toList)),
           ("parameters".toList, Json.obj [])])],
        listToolsCalls := 1 } : AgentState).listToolsCalls ≤ agentW.listToolsCalls + 1) :=
  ⟨rfl, schema_cache_idempotent agentW ("add".toList) _ _ rfl⟩

/-- The endpoint's reversed-scan for the last user message agrees with the
direct recursion. -/
theorem last_user_message_eq_lastUserPair (l : List (List Char × List Char)) :
    last_user_message l = lastUserPair l := by
  induction l with
  | nil => rfl
  | cons m rest ih =>
    unfold last_user_message at ih ⊢
    unfold lastUserPair
    rw [List.reverse_cons, List.find?_append]
    cases hf : rest.reverse.find? (fun x => x.1 == "user".toList) with
    | some p =>
      rw [hf] at ih
      dsimp only at ih
      rw [← ih]
      rfl
    | none =>
      rw [hf] at ih
      dsimp only at ih
      rw [← ih]
      cases hb : (m.1 == "user".toList) <;> simp only [List.find?, hb] <;> rfl

/-- Converting the request messages preserves the last user-role content. -/
theorem convert_lastUser (msgs : List ChatMessage) :
    lastUserPair (convert_messages msgs) = lastUserContent msgs := by
  induction msgs with
  | nil => rfl
  | cons m rest ih =>
    unfold convert_messages lastUserContent
    by_cases hsys : (m.role == "system".toList) = true
    · have hrole : m.role = "system".toList := by simpa using hsys
      simp only [hsys, if_true]
      rw [ih]
      cases hc : lastUserContent rest <;> simp [hrole]
    · have hsys' : (m.role == "system".toList) = false := by
        simpa using hsys
      by_cases husr : (m.role == "user".toList) = true
      · have hrole : m.role = "user".toList := by simpa using husr
        simp only [hsys', husr, Bool.false_eq_true, if_false, if_true]
        simp only [lastUserPair]
        rw [ih]
        cases hc : lastUserContent rest <;> simp [hrole]
      · have husr' : (m.role == "user".toList) = false := by
          simpa using husr
        by_cases hast : (m.role == "assistant".toList) = true
        · simp only [hsys', husr', hast, Bool.false_eq_true, if_false, if_true]
          simp only [lastUserPair]
          rw [ih]
          cases hc : lastUserContent rest <;> simp [husr']
        · have hast' : (m.role == "assistant".toList) = false := by
            simpa using hast
          simp only [hsys', husr', hast', Bool.false_eq_true, if_false]
          rw [ih]
          cases hc : lastUserContent rest <;> simp [husr']

/-- C10: the chat-completions endpoint processes only the last user-role
message of the request — system-role messages are skipped and earlier
user/assistant messages never reach the session — a fresh session whose
history starts with the endpoint's own system prompt (built from the
registry's tool names) is created for the request, and a request with no
user-role message yields the error object instead of invoking the LLM. -/
theorem chat_endpoint_processes_last_user_only (tool_names : List (List Char))
    (model : List Char) (request_messages : List ChatMessage) :
    (lastUserContent request_messages = none →
      chat_completions tool_names model request_messages =
        Except.error ("No user message found".toList)) ∧
    (∀ c, lastUserContent request_messages = some c → c ≠ [] →
      ((parse_model_string model).1 = "openai".toList ∨
       (parse_model_string model).1 = "azure".toList ∨
       (parse_model_string model).1 = "ollama".toList ∨
       (parse_model_string model).1 = "groq".toList) →
      chat_completions tool_names model request_messages =
        Except.ok ([⟨Role.system, create_system_prompt tool_names⟩], c)) := by
  have hlu : last_user_message (convert_messages request_messages) =
      lastUserContent request_messages := by
    rw [last_user_message_eq_lastUserPair, convert_lastUser]
  constructor
  · intro h
    unfold chat_completions
    dsimp only
    rw [hlu, h]
  · intro c hc hne hprov
    unfold chat_completions
    dsimp only
    rw [hlu, hc]
    dsimp only
    rw [if_neg hne, if_pos hprov]

/-- Witness for C10: a request with only a system message errors; a request
with system, two user and one assistant message selects the second user
message and builds the fresh prompt-bearing session. -/
theorem chat_endpoint_processes_last_user_only_witness :
    (lastUserContent [⟨"system".toList, "sys".toList⟩] = none ∧
     chat_completions ["add".toList] ("gpt-4".toList) [⟨"system".toList, "sys".toList⟩] =
       Except.error ("No user message found".toList)) ∧
    (lastUserContent
        [⟨"system".toList, "sys".toList⟩, ⟨"user".toList, "first".toList⟩,
         ⟨"assistant".toList, "ans".toList⟩, ⟨"user".toList, "second".toList⟩] =
       some ("second".toList) ∧
     chat_completions ["add".toList] ("groq/llama".toList)
        [⟨"system".toList, "sys".toList⟩, ⟨"user".toList, "first".toList⟩,
         ⟨"assistant".toList, "ans".toList⟩, ⟨"user".toList, "second".toList⟩] =
       Except.ok ([⟨Role.system, create_system_prompt ["add".toList]⟩], "second".toList)) :=
  ⟨⟨rfl, (chat_endpoint_processes_last_user_only ["add".toList] ("gpt-4".toList)
      [⟨"system".toList, "sys".toList⟩]).1 rfl⟩,
   ⟨rfl, (chat_endpoint_processes_last_user_only ["add".toList] ("groq/llama".toList)
      [⟨"system".toList, "sys".toList⟩, ⟨"user".toList, "first".toList⟩,
       ⟨"assistant".toList, "ans".toList⟩, ⟨"user".toList, "second".toList⟩]).2
      ("second".toList) rfl (by decide) (Or.inr (Or.inr (Or.inr rfl)))⟩⟩

end MCP
